import Mathlib

/-!
Shallow embedding of the chunked document translation pipeline of the
multilang-rag-system repository: the in-memory translation cache
(`lib/translation-cache`), the per-chunk `translateText` function, the
retry/backoff loop, availability probe and admission gates of the bulk
translation endpoint (`POST`) and the binary download endpoint (`GET`).
Machine effects (console logging, MongoDB access, document rendering)
are modelled away; the document store's answers (metadata, chunk list)
and the external translation provider are inputs to the embedded
functions.  The md5 fingerprint used in cache keys is modelled as an
injective fingerprint: the key keeps the code's three components
(sourceLang, targetLang, normalized text) as a triple.
-/

namespace MLRag

/-- Cache key components: (sourceLang, targetLang, fingerprint of normalized text),
    modelling the string `${sourceLanguage}-${targetLanguage}-${md5hex}`. -/
abbrev CacheKey := String × String × String

/-- `text.trim()`: drop leading and trailing whitespace.  Implemented over
    the character list so that concrete inputs evaluate (the library's
    `String.trim` is defined by well-founded recursion and does not
    reduce). -/
def trimText (s : String) : String :=
  String.mk (((s.data.dropWhile Char.isWhitespace).reverse.dropWhile Char.isWhitespace).reverse)

/-- `text.trim().toLowerCase()` from `getCacheKey`. -/
def normalizeText (s : String) : String :=
  String.mk ((trimText s).data.map Char.toLower)

/-- `getCacheKey` from the translation cache module. -/
def getCacheKey (text targetLanguage sourceLanguage : String) : CacheKey :=
  (sourceLanguage, targetLanguage, normalizeText text)

/-- Mutable process state threaded through the pipeline: the cache map
    (`translationCache`), its hit/miss counters, and an instrumentation
    counter of provider invocations (used to state "zero provider calls"). -/
structure TState where
  cache : List (CacheKey × String)
  hits : Nat
  misses : Nat
  providerCalls : Nat
deriving DecidableEq

/-- Fresh process state: empty cache, zeroed counters. -/
def initState : TState := ⟨[], 0, 0, 0⟩

/-- `Map.get`: first binding for the key (bindings are kept unique by `setEntry`). -/
def findEntry : List (CacheKey × String) → CacheKey → Option String
  | [], _ => none
  | (k, v) :: rest, key => if k = key then some v else findEntry rest key

/-- `Map.set`: overwrite in place if the key is bound, else append at the end. -/
def setEntry : List (CacheKey × String) → CacheKey → String → List (CacheKey × String)
  | [], key, v => [(key, v)]
  | (k, w) :: rest, key, v =>
    if k = key then (key, v) :: rest else (k, w) :: setEntry rest key v

/-- `getCachedTranslation`: look the key up; a truthy (non-empty) value is a
    hit, anything else counts a miss and yields nothing. -/
def getCachedTranslation (s : TState) (text targetLanguage sourceLanguage : String) :
    Option String × TState :=
  match findEntry s.cache (getCacheKey text targetLanguage sourceLanguage) with
  | some v =>
    if v = "" then (none, { s with misses := s.misses + 1 })
    else (some v, { s with hits := s.hits + 1 })
  | none => (none, { s with misses := s.misses + 1 })

/-- `setCachedTranslation`: no-op when either string is empty or the
    translation equals the source text; otherwise bind the key. -/
def setCachedTranslation (s : TState) (text translatedText targetLanguage sourceLanguage : String) :
    TState :=
  if text = "" ∨ translatedText = "" ∨ text = translatedText then s
  else { s with cache := setEntry s.cache (getCacheKey text targetLanguage sourceLanguage) translatedText }

/-- The record returned by `getCacheStats`. -/
structure CacheStats where
  size : Nat
  hits : Nat
  misses : Nat
  hitRate : Rat
deriving DecidableEq

/-- `getCacheStats`: note the hit rate is a percentage (the quotient times 100). -/
def getCacheStats (s : TState) : CacheStats :=
  { size := s.cache.length
    hits := s.hits
    misses := s.misses
    hitRate :=
      if s.hits + s.misses > 0 then ((s.hits : Rat) / ((s.hits : Rat) + (s.misses : Rat))) * 100
      else 0 }

/-- Outcome of one provider call (`translate(text, {from, to})`): a result
    object with a `text` field, or a rejection.  The code's catch blocks treat
    both rejection kinds identically inside `translateText`; the retry loops
    in the routes distinguish them by error message. -/
inductive ProviderResult where
  | ok (text : String)
  | rateLimited
  | failed
deriving DecidableEq

/-- `p text sourceLang targetLang` is the provider's answer for that request. -/
abbrev Provider := String → String → String → ProviderResult

/-- `translateText(text, targetLanguage, sourceLanguage)` common to both
    routes: same-language / blank short-circuit, then cache lookup, then one
    provider call whose failure or unhelpful answer degrades to the original
    text.  Every code path of the source function returns a string (all
    awaits sit inside its try), so the embedding is a total function. -/
def translateText (p : Provider) (s : TState) (text targetLanguage sourceLanguage : String) :
    String × TState :=
  if targetLanguage = sourceLanguage ∨ text = "" ∨ trimText text = "" then (text, s)
  else
    match getCachedTranslation s text targetLanguage sourceLanguage with
    | (some cached, s1) => (cached, s1)
    | (none, s1) =>
      let s2 := { s1 with providerCalls := s1.providerCalls + 1 }
      match p text sourceLanguage targetLanguage with
      | .ok r =>
        if r = "" ∨ r = text then (text, s2)
        else (r, setCachedTranslation s2 text r targetLanguage sourceLanguage)
      | .rateLimited => (text, s2)
      | .failed => (text, s2)

/-- What one iteration of a route's retry loop observes from its awaited
    attempt: a normal value, a rejection whose message contains
    "Too Many Requests", or any other rejection. -/
inductive Attempt where
  | ok (t : String)
  | rateLimited
  | otherFail
deriving DecidableEq

/-- The `while (retryCount < MAX_RETRIES && !success)` retry loop of both
    routes, fuel = MAX_RETRIES - retryCount.  Returns (content, delay log,
    attempts made, state).  A rate-limited rejection increments retryCount
    and sleeps `retryCount * base` milliseconds (also after the final
    attempt, as the source does); any other rejection breaks out with the
    content unchanged. -/
def routeRetryGo (att : TState → Attempt × TState) (base : Nat) :
    Nat → Nat → String → List Nat → Nat → TState → String × List Nat × Nat × TState
  | 0, _, content, delays, made, s => (content, delays, made, s)
  | fuel + 1, rc, content, delays, made, s =>
    match att s with
    | (.ok t, s1) => (t, delays, made + 1, s1)
    | (.rateLimited, s1) =>
      routeRetryGo att base fuel (rc + 1) content (delays ++ [(rc + 1) * base]) (made + 1) s1
    | (.otherFail, s1) => (content, delays, made + 1, s1)

/-- Retry loop of the bulk route: MAX_RETRIES = 3, backoff base 5000 ms
    (`retryCount * 5000`). -/
def bulkRetryLoop (att : TState → Attempt × TState) (orig : String) (s : TState) :
    String × List Nat × Nat × TState :=
  routeRetryGo att 5000 3 0 orig [] 0 s

/-- Retry loop of the download route: maxRetries = 3, backoff base 3000 ms
    (`retryCount * 3000`). -/
def downloadRetryLoop (att : TState → Attempt × TState) (orig : String) (s : TState) :
    String × List Nat × Nat × TState :=
  routeRetryGo att 3000 3 0 orig [] 0 s

/-- The attempt actually made by both routes: awaiting `translateText`,
    which always resolves to a string, so the loop sees a normal value. -/
def attemptOf (p : Provider) (content targetLanguage sourceLanguage : String) (s : TState) :
    Attempt × TState :=
  let r := translateText p s content targetLanguage sourceLanguage
  (.ok r.1, r.2)

/-- One chunk's processing in the bulk route's loop body. -/
def chunkStepBulk (p : Provider) (content targetLanguage sourceLanguage : String) (s : TState) :
    String × List Nat × Nat × TState :=
  bulkRetryLoop (attemptOf p content targetLanguage sourceLanguage) content s

/-- One chunk's processing in the download route's loop body. -/
def chunkStepDownload (p : Provider) (content targetLanguage sourceLanguage : String) (s : TState) :
    String × List Nat × Nat × TState :=
  downloadRetryLoop (attemptOf p content targetLanguage sourceLanguage) content s

/-- A stored chunk as the document store returns it. -/
structure Chunk where
  chunkIndex : Nat
  content : String
deriving DecidableEq

/-- Document metadata as the store returns it. -/
structure Metadata where
  title : String
  language : Option String
deriving DecidableEq

/-- The bulk route's sequential chunk loop: retry-wrapped translate, then —
    except after the last chunk — a pacing delay of 100 ms if a fresh cache
    lookup of the chunk's source text now hits, else 2000 ms
    (DELAY_BETWEEN_REQUESTS).  Returns (translated texts, pacing delays,
    state). -/
def processBulk (p : Provider) (targetLanguage sourceLanguage : String) :
    List Chunk → TState → List String × List Nat × TState
  | [], s => ([], [], s)
  | c :: rest, s =>
    let r := chunkStepBulk p c.content targetLanguage sourceLanguage s
    match rest with
    | [] => ([r.1], [], r.2.2.2)
    | c2 :: rest2 =>
      let q := getCachedTranslation r.2.2.2 c.content targetLanguage sourceLanguage
      let d := if q.1.isSome then 100 else 2000
      let pr := processBulk p targetLanguage sourceLanguage (c2 :: rest2) q.2
      (r.1 :: pr.1, d :: pr.2.1, pr.2.2)

/-- The download route's sequential chunk loop: retry-wrapped translate, then
    a fixed 2000 ms pacing delay after every chunk except the last. -/
def processDownload (p : Provider) (targetLanguage sourceLanguage : String) :
    List Chunk → TState → List String × List Nat × TState
  | [], s => ([], [], s)
  | c :: rest, s =>
    let r := chunkStepDownload p c.content targetLanguage sourceLanguage s
    match rest with
    | [] => ([r.1], [], r.2.2.2)
    | c2 :: rest2 =>
      let pr := processDownload p targetLanguage sourceLanguage (c2 :: rest2) r.2.2.2
      (r.1 :: pr.1, 2000 :: pr.2.1, pr.2.2)

/-- The state the bulk loop has reached just before processing chunk `i`. -/
def bulkStateBefore (p : Provider) (targetLanguage sourceLanguage : String) :
    List Chunk → TState → Nat → TState
  | _, s, 0 => s
  | [], s, _ + 1 => s
  | c :: rest, s, i + 1 =>
    let r := chunkStepBulk p c.content targetLanguage sourceLanguage s
    match rest with
    | [] => r.2.2.2
    | c2 :: rest2 =>
      let q := getCachedTranslation r.2.2.2 c.content targetLanguage sourceLanguage
      bulkStateBefore p targetLanguage sourceLanguage (c2 :: rest2) q.2 i

/-- The state the download loop has reached just before processing chunk `i`. -/
def downloadStateBefore (p : Provider) (targetLanguage sourceLanguage : String) :
    List Chunk → TState → Nat → TState
  | _, s, 0 => s
  | [], s, _ + 1 => s
  | c :: rest, s, i + 1 =>
    let r := chunkStepDownload p c.content targetLanguage sourceLanguage s
    match rest with
    | [] => r.2.2.2
    | c2 :: rest2 => downloadStateBefore p targetLanguage sourceLanguage (c2 :: rest2) r.2.2.2 i

/-- The JSON body of the bulk POST request. -/
structure ReqBody where
  documentId : Option String
  targetLanguage : Option String
  format : String
deriving DecidableEq

/-- Observable outcome of the bulk POST handler.  `tooLarge` keeps the 413
    payload's chunk count, its `documentInfo.estimatedTime` minutes when the
    payload has one, and whether it offers `fallbackOptions.untranslatedDownload`;
    `unavailable` keeps the 503 payload's chunk count, `retryOptions.retryAfter`
    guidance and the same fallback flag; `success` keeps the joined content
    and the chunk count of the success JSON. -/
inductive PostResult where
  | missingDocumentId
  | missingTargetLanguage
  | documentNotFound
  | noChunks
  | tooLarge (chunks : Nat) (estimatedMinutes : Option Nat) (untranslatedFallback : Bool)
  | unavailable (chunks : Nat) (retryAfter : String) (untranslatedFallback : Bool)
  | success (content : String) (chunks : Nat)
deriving DecidableEq

/-- HTTP status attached to each outcome by the bulk route. -/
def PostResult.status : PostResult → Nat
  | .missingDocumentId => 400
  | .missingTargetLanguage => 400
  | .documentNotFound => 404
  | .noChunks => 404
  | .tooLarge _ _ _ => 413
  | .unavailable _ _ _ => 503
  | .success _ _ => 200

/-- Whether the outcome is the admission rejection. -/
def PostResult.isTooLarge : PostResult → Bool
  | .tooLarge _ _ _ => true
  | _ => false

/-- The bulk translation endpoint (`POST /api/documents/translate`): argument
    parsing, store answers, admission gate at 100 chunks with
    `Math.ceil(chunks*3/60)` estimated minutes and an untranslated-download
    fallback, same-language short-circuit, the "test" canary probe, the chunk
    loop, and the blank-line join. -/
def POST (body : ReqBody) (md : Option Metadata) (chunks : List Chunk) (p : Provider)
    (s0 : TState) : PostResult × TState :=
  if body.documentId.getD "" = "" then (.missingDocumentId, s0)
  else if body.targetLanguage.getD "en" = "" then (.missingTargetLanguage, s0)
  else
    match md with
    | none => (.documentNotFound, s0)
    | some m =>
      if chunks.length = 0 then (.noChunks, s0)
      else if chunks.length > 100 then
        (.tooLarge chunks.length (some ((3 * chunks.length + 59) / 60)) true, s0)
      else
        let targetLanguage := body.targetLanguage.getD "en"
        let sourceLanguage := m.language.getD "en"
        if targetLanguage = sourceLanguage then
          (.success (String.intercalate "\n\n" (chunks.map Chunk.content)) chunks.length, s0)
        else
          let probe := translateText p s0 "test" targetLanguage sourceLanguage
          if probe.1 = "test" then
            (.unavailable chunks.length "10-15 minutes" true, probe.2)
          else
            let pr := processBulk p targetLanguage sourceLanguage chunks probe.2
            (.success (String.intercalate "\n\n" pr.1) chunks.length, pr.2.2)

/-- Observable outcome of the download route's binary branch.
    `tooLargeDownload` keeps the 413 payload's chunk count; that payload has
    no estimated time and no untranslated-download reference, recorded as
    `none` / `false`.  `fileResponse` keeps the joined content handed to the
    renderer and the chunk count. -/
inductive GetResult where
  | documentNotFound
  | noChunks
  | tooLargeDownload (chunks : Nat) (estimatedMinutes : Option Nat) (untranslatedFallback : Bool)
  | fileResponse (content : String) (chunks : Nat)
deriving DecidableEq

/-- HTTP status attached to each outcome by the download route. -/
def GetResult.status : GetResult → Nat
  | .documentNotFound => 404
  | .noChunks => 404
  | .tooLargeDownload _ _ _ => 413
  | .fileResponse _ _ => 200

/-- Whether the outcome is the admission rejection. -/
def GetResult.isTooLarge : GetResult → Bool
  | .tooLargeDownload _ _ _ => true
  | _ => false

/-- The binary branch of the download endpoint
    (`GET /api/documents/download` with documentId, targetLanguage and a
    pdf/docx format): store answers, admission gate at 50 chunks unless
    `skipTranslation`, skip/same-language short-circuit, the chunk loop with
    fixed 2000 ms pacing, and the blank-line join.  No availability probe
    exists on this route. -/
def GETbinary (targetLanguage : String) (skipTranslation : Bool) (md : Option Metadata)
    (chunks : List Chunk) (p : Provider) (s0 : TState) : GetResult × TState :=
  match md with
  | none => (.documentNotFound, s0)
  | some m =>
    if chunks.length = 0 then (.noChunks, s0)
    else if chunks.length > 50 ∧ ¬skipTranslation then
      (.tooLargeDownload chunks.length none false, s0)
    else
      let sourceLanguage := m.language.getD "en"
      if skipTranslation ∨ targetLanguage = sourceLanguage then
        (.fileResponse (String.intercalate "\n\n" (chunks.map Chunk.content)) chunks.length, s0)
      else
        let pr := processDownload p targetLanguage sourceLanguage chunks s0
        (.fileResponse (String.intercalate "\n\n" pr.1) chunks.length, pr.2.2)

/-- The chunk outcome when the chunk's key is not yet cached: the provider's
    changed non-empty answer on success, the original content otherwise. -/
def pureOutcome (p : Provider) (targetLanguage sourceLanguage content : String) : String :=
  match p content sourceLanguage targetLanguage with
  | .ok t => if t = "" ∨ t = content then content else t
  | .rateLimited => content
  | .failed => content

/-- An attempt oracle that always rejects rate-limited. -/
def alwaysRateLimited : TState → Attempt × TState := fun st => (.rateLimited, st)

/-- An attempt oracle that always rejects with a generic failure. -/
def alwaysOtherFail : TState → Attempt × TState := fun st => (.otherFail, st)

/-- A provider that always rejects with a generic failure. -/
def failingProvider : Provider := fun _ _ _ => .failed

/-- A concrete provider fixture with a small fixed translation table. -/
def demoProvider : Provider := fun t _ _ =>
  if t = "test" then .ok "prueba"
  else if t = "Hello." then .ok "Hola."
  else if t = "World." then .ok "Mundo."
  else if t = "Bye." then .ok "Adios."
  else .failed

/-- A provider fixture that is rate-limited exactly on "World.". -/
def failAt1Provider : Provider := fun t _ _ =>
  if t = "test" then .ok "prueba"
  else if t = "Hello." then .ok "Hola."
  else if t = "World." then .rateLimited
  else if t = "Bye." then .ok "Adios."
  else .failed

/-- A concrete request body fixture. -/
def demoBody : ReqBody :=
  { documentId := some "notes.txt", targetLanguage := some "es", format := "txt" }

/-- A concrete metadata fixture. -/
def demoMeta : Metadata := { title := "notes.txt", language := some "en" }

/-- Two distinct chunks. -/
def demoChunks : List Chunk := [⟨0, "Hello."⟩, ⟨1, "World."⟩]

/-- Three distinct chunks. -/
def threeChunks : List Chunk := [⟨0, "Hello."⟩, ⟨1, "World."⟩, ⟨2, "Bye."⟩]

/-- Three chunks where the second repeats the first's content. -/
def dupChunks : List Chunk := [⟨0, "Hello."⟩, ⟨1, "Hello."⟩, ⟨2, "World."⟩]

/-- `n` one-character chunks, for admission-gate inputs. -/
def manyChunks (n : Nat) : List Chunk :=
  (List.range n).map (fun i => { chunkIndex := i, content := "c" })

/-! ### Basic lemmas about the cache map -/

lemma findEntry_setEntry_self (m : List (CacheKey × String)) (k : CacheKey) (v : String) :
    findEntry (setEntry m k v) k = some v := by
  induction m with
  | nil => simp [setEntry, findEntry]
  | cons e rest ih =>
    obtain ⟨k', w⟩ := e
    by_cases h : k' = k
    · simp [setEntry, h, findEntry]
    · simp [setEntry, h, findEntry, ih]

lemma findEntry_setEntry_ne (m : List (CacheKey × String)) (k k' : CacheKey) (v : String)
    (h : k' ≠ k) :
    findEntry (setEntry m k v) k' = findEntry m k' := by
  induction m with
  | nil => simp [setEntry, findEntry, h, Ne.symm h]
  | cons e rest ih =>
    obtain ⟨k0, w⟩ := e
    by_cases h0 : k0 = k
    · subst h0
      simp [setEntry, findEntry, h, Ne.symm h]
    · simp [setEntry, h0, findEntry, ih]

lemma getCachedTranslation_none (s : TState) (t tl sl : String)
    (h : findEntry s.cache (getCacheKey t tl sl) = none) :
    getCachedTranslation s t tl sl = (none, { s with misses := s.misses + 1 }) := by
  unfold getCachedTranslation
  rw [h]

lemma getCachedTranslation_some (s : TState) (t tl sl v : String)
    (h : findEntry s.cache (getCacheKey t tl sl) = some v) (hv : v ≠ "") :
    getCachedTranslation s t tl sl = (some v, { s with hits := s.hits + 1 }) := by
  unfold getCachedTranslation
  rw [h]
  simp [hv]

lemma getCachedTranslation_cache (s : TState) (t tl sl : String) :
    (getCachedTranslation s t tl sl).2.cache = s.cache := by
  unfold getCachedTranslation
  rcases h : findEntry s.cache (getCacheKey t tl sl) with _ | v
  · rfl
  · by_cases hv : v = "" <;> simp [hv]

lemma getCachedTranslation_providerCalls (s : TState) (t tl sl : String) :
    (getCachedTranslation s t tl sl).2.providerCalls = s.providerCalls := by
  unfold getCachedTranslation
  rcases h : findEntry s.cache (getCacheKey t tl sl) with _ | v
  · rfl
  · by_cases hv : v = "" <;> simp [hv]

lemma setCachedTranslation_cache_other (s : TState) (text tr tl sl : String) (k : CacheKey)
    (hk : k ≠ getCacheKey text tl sl) :
    findEntry (setCachedTranslation s text tr tl sl).cache k = findEntry s.cache k := by
  unfold setCachedTranslation
  by_cases h : text = "" ∨ tr = "" ∨ text = tr
  · simp [h]
  · simp [h, findEntry_setEntry_ne _ _ _ _ hk]

/-! ### Lemmas about translateText and the retry loop -/

lemma chunkStepBulk_eq (p : Provider) (content tl sl : String) (s : TState) :
    chunkStepBulk p content tl sl s =
      ((translateText p s content tl sl).1, [], 1, (translateText p s content tl sl).2) := rfl

lemma chunkStepDownload_eq (p : Provider) (content tl sl : String) (s : TState) :
    chunkStepDownload p content tl sl s =
      ((translateText p s content tl sl).1, [], 1, (translateText p s content tl sl).2) := rfl

lemma translateText_cache_other (p : Provider) (s : TState) (text tl sl : String) (k : CacheKey)
    (hk : k ≠ getCacheKey text tl sl) :
    findEntry (translateText p s text tl sl).2.cache k = findEntry s.cache k := by
  unfold translateText
  by_cases h1 : tl = sl ∨ text = "" ∨ trimText text = ""
  · simp [h1]
  · rw [if_neg h1]
    rcases hq : getCachedTranslation s text tl sl with ⟨o, s1⟩
    have hs1 : s1.cache = s.cache := by
      have h := getCachedTranslation_cache s text tl sl
      rw [hq] at h
      exact h
    cases o with
    | some c =>
      dsimp only
      rw [hs1]
    | none =>
      cases hp : p text sl tl with
      | ok r =>
        dsimp only
        by_cases hr : r = "" ∨ r = text
        · rw [if_pos hr]
          show findEntry s1.cache k = findEntry s.cache k
          rw [hs1]
        · rw [if_neg hr,
            setCachedTranslation_cache_other { s1 with providerCalls := s1.providerCalls + 1 }
              text r tl sl k hk]
          show findEntry s1.cache k = findEntry s.cache k
          rw [hs1]
      | rateLimited =>
        dsimp only
        show findEntry s1.cache k = findEntry s.cache k
        rw [hs1]
      | failed =>
        dsimp only
        show findEntry s1.cache k = findEntry s.cache k
        rw [hs1]

lemma translateText_providerCalls (p : Provider) (s : TState) (text tl sl : String) :
    (translateText p s text tl sl).2.providerCalls ≤ s.providerCalls + 1 := by
  unfold translateText
  by_cases h1 : tl = sl ∨ text = "" ∨ trimText text = ""
  · simp [h1]
  · rw [if_neg h1]
    rcases hq : getCachedTranslation s text tl sl with ⟨o, s1⟩
    have hs1 : s1.providerCalls = s.providerCalls := by
      have h := getCachedTranslation_providerCalls s text tl sl
      rw [hq] at h
      exact h
    cases o with
    | some c => simp [hs1]
    | none =>
      cases hp : p text sl tl with
      | ok r =>
        by_cases hr : r = "" ∨ r = text
        · simp [hr, hs1]
        · simp only [hr, if_false]
          unfold setCachedTranslation
          by_cases hg : text = "" ∨ r = "" ∨ text = r
          · simp [hg, hs1]
          · simp [hg, hs1]
      | rateLimited => simp [hs1]
      | failed => simp [hs1]

lemma translateText_miss_fst (p : Provider) (s : TState) (text tl sl : String)
    (h1 : ¬(tl = sl ∨ text = "" ∨ trimText text = ""))
    (h2 : findEntry s.cache (getCacheKey text tl sl) = none) :
    (translateText p s text tl sl).1 = pureOutcome p tl sl text := by
  unfold translateText
  rw [if_neg h1, getCachedTranslation_none s text tl sl h2]
  cases hp : p text sl tl with
  | ok r =>
    by_cases hr : r = "" ∨ r = text
    · simp [pureOutcome, hp, hr]
    · simp [pureOutcome, hp, hr]
  | rateLimited => simp [pureOutcome, hp]
  | failed => simp [pureOutcome, hp]

lemma getCacheStats_hitRate (s : TState) :
    (getCacheStats s).hitRate =
      if 0 < s.hits + s.misses then ((s.hits : Rat) / ((s.hits : Rat) + (s.misses : Rat))) * 100
      else 0 := rfl

lemma routeRetryGo_rl_step (att : TState → Attempt × TState) (base fuel rc : Nat)
    (content : String) (delays : List Nat) (made : Nat) (s : TState)
    (h : (att s).1 = .rateLimited) :
    routeRetryGo att base (fuel + 1) rc content delays made s =
      routeRetryGo att base fuel (rc + 1) content (delays ++ [(rc + 1) * base]) (made + 1)
        (att s).2 := by
  have key : att s = (.rateLimited, (att s).2) := by rw [← h]
  rw [routeRetryGo, key]

lemma routeRetryGo_fail_step (att : TState → Attempt × TState) (base fuel rc : Nat)
    (content : String) (delays : List Nat) (made : Nat) (s : TState)
    (h : (att s).1 = .otherFail) :
    routeRetryGo att base (fuel + 1) rc content delays made s =
      (content, delays, made + 1, (att s).2) := by
  have key : att s = (.otherFail, (att s).2) := by rw [← h]
  rw [routeRetryGo, key]

lemma routeRetryGo_rl_all (att : TState → Attempt × TState) (base : Nat)
    (hrl : ∀ st, (att st).1 = .rateLimited) :
    ∀ (fuel rc : Nat) (content : String) (delays : List Nat) (made : Nat) (s : TState),
      (routeRetryGo att base fuel rc content delays made s).1 = content
      ∧ (routeRetryGo att base fuel rc content delays made s).2.1 =
          delays ++ (List.range fuel).map (fun j => (rc + 1 + j) * base)
      ∧ (routeRetryGo att base fuel rc content delays made s).2.2.1 = made + fuel := by
  intro fuel
  induction fuel with
  | zero => intro rc content delays made s; simp [routeRetryGo]
  | succ n ih =>
    intro rc content delays made s
    rw [routeRetryGo_rl_step att base n rc content delays made s (hrl s)]
    obtain ⟨ha, hb, hc⟩ := ih (rc + 1) content (delays ++ [(rc + 1) * base]) (made + 1) (att s).2
    refine ⟨ha, ?_, by omega⟩
    rw [hb]
    rw [List.append_assoc]
    congr 1
    rw [List.range_succ_eq_map]
    simp [List.map_map, Function.comp]
    intro a ha
    omega

lemma routeRetryGo_fail_all (att : TState → Attempt × TState) (base : Nat)
    (hof : ∀ st, (att st).1 = .otherFail) (fuel rc : Nat) (content : String)
    (delays : List Nat) (made : Nat) (s : TState) (hf : 0 < fuel) :
    routeRetryGo att base fuel rc content delays made s = (content, delays, made + 1, (att s).2) := by
  cases fuel with
  | zero => omega
  | succ n => exact routeRetryGo_fail_step att base n rc content delays made s (hof s)

/-! ### Lemmas about the sequential chunk loops -/

lemma processBulk_length (p : Provider) (tl sl : String) :
    ∀ (chunks : List Chunk) (s : TState),
      (processBulk p tl sl chunks s).1.length = chunks.length := by
  intro chunks
  induction chunks with
  | nil => intro s; rfl
  | cons c rest ih =>
    intro s
    cases rest with
    | nil => rfl
    | cons c2 rest2 => simp [processBulk, ih]

lemma processBulk_get (p : Provider) (tl sl : String) :
    ∀ (chunks : List Chunk) (s : TState) (i : Nat) (hi : i < chunks.length),
      (processBulk p tl sl chunks s).1[i]? =
        some ((translateText p (bulkStateBefore p tl sl chunks s i)
          (chunks.get ⟨i, hi⟩).content tl sl).1) := by
  intro chunks
  induction chunks with
  | nil => intro s i hi; simp at hi
  | cons c rest ih =>
    intro s i hi
    cases rest with
    | nil =>
      cases i with
      | zero => simp [processBulk, chunkStepBulk_eq, bulkStateBefore]
      | succ n => simp at hi
    | cons c2 rest2 =>
      cases i with
      | zero => simp [processBulk, chunkStepBulk_eq, bulkStateBefore]
      | succ n =>
        have hn : n < (c2 :: rest2).length := by
          simpa using hi
        simp only [processBulk, chunkStepBulk_eq, List.getElem?_cons_succ, List.get_cons_succ]
        rw [ih (getCachedTranslation (translateText p s c.content tl sl).2 c.content tl sl).2 n hn]
        simp [bulkStateBefore, chunkStepBulk_eq]

lemma processBulk_delays_length (p : Provider) (tl sl : String) :
    ∀ (chunks : List Chunk) (s : TState),
      (processBulk p tl sl chunks s).2.1.length = chunks.length - 1 := by
  intro chunks
  induction chunks with
  | nil => intro s; rfl
  | cons c rest ih =>
    intro s
    cases rest with
    | nil => rfl
    | cons c2 rest2 =>
      simp only [processBulk]
      simp [ih]

lemma processBulk_delay_get (p : Provider) (tl sl : String) :
    ∀ (chunks : List Chunk) (s : TState) (i : Nat) (hi : i + 1 < chunks.length),
      (processBulk p tl sl chunks s).2.1[i]? =
        some (if (getCachedTranslation
            (translateText p (bulkStateBefore p tl sl chunks s i)
              (chunks.get ⟨i, by omega⟩).content tl sl).2
            (chunks.get ⟨i, by omega⟩).content tl sl).1.isSome
          then 100 else 2000) := by
  intro chunks
  induction chunks with
  | nil => intro s i hi; simp at hi
  | cons c rest ih =>
    intro s i hi
    cases rest with
    | nil => simp at hi
    | cons c2 rest2 =>
      cases i with
      | zero => simp [processBulk, chunkStepBulk_eq, bulkStateBefore]
      | succ n =>
        have hn : n + 1 < (c2 :: rest2).length := by
          simpa using hi
        simp only [processBulk, chunkStepBulk_eq, List.getElem?_cons_succ, List.get_cons_succ]
        rw [ih (getCachedTranslation (translateText p s c.content tl sl).2 c.content tl sl).2 n hn]
        simp [bulkStateBefore, chunkStepBulk_eq]

lemma processDownload_length (p : Provider) (tl sl : String) :
    ∀ (chunks : List Chunk) (s : TState),
      (processDownload p tl sl chunks s).1.length = chunks.length := by
  intro chunks
  induction chunks with
  | nil => intro s; rfl
  | cons c rest ih =>
    intro s
    cases rest with
    | nil => rfl
    | cons c2 rest2 => simp [processDownload, ih]

lemma processDownload_get (p : Provider) (tl sl : String) :
    ∀ (chunks : List Chunk) (s : TState) (i : Nat) (hi : i < chunks.length),
      (processDownload p tl sl chunks s).1[i]? =
        some ((translateText p (downloadStateBefore p tl sl chunks s i)
          (chunks.get ⟨i, hi⟩).content tl sl).1) := by
  intro chunks
  induction chunks with
  | nil => intro s i hi; simp at hi
  | cons c rest ih =>
    intro s i hi
    cases rest with
    | nil =>
      cases i with
      | zero => simp [processDownload, chunkStepDownload_eq, downloadStateBefore]
      | succ n => simp at hi
    | cons c2 rest2 =>
      cases i with
      | zero => simp [processDownload, chunkStepDownload_eq, downloadStateBefore]
      | succ n =>
        have hn : n < (c2 :: rest2).length := by
          simpa using hi
        simp only [processDownload, chunkStepDownload_eq, List.getElem?_cons_succ,
          List.get_cons_succ]
        rw [ih (translateText p s c.content tl sl).2 n hn]
        simp [downloadStateBefore, chunkStepDownload_eq]

lemma processDownload_delays (p : Provider) (tl sl : String) :
    ∀ (chunks : List Chunk) (s : TState),
      (processDownload p tl sl chunks s).2.1 = List.replicate (chunks.length - 1) 2000 := by
  intro chunks
  induction chunks with
  | nil => intro s; rfl
  | cons c rest ih =>
    intro s
    cases rest with
    | nil => rfl
    | cons c2 rest2 =>
      simp only [processDownload]
      rw [ih]
      simp [List.replicate_succ]

lemma processBulk_pure (p : Provider) (tl sl : String) (htl : tl ≠ sl) :
    ∀ (chunks : List Chunk) (s : TState),
      (∀ c ∈ chunks, c.content ≠ "" ∧ trimText c.content ≠ "") →
      (∀ c ∈ chunks, findEntry s.cache (getCacheKey c.content tl sl) = none) →
      List.Pairwise (fun a b => normalizeText a.content ≠ normalizeText b.content) chunks →
      (processBulk p tl sl chunks s).1 =
        chunks.map (fun c => pureOutcome p tl sl c.content) := by
  intro chunks
  induction chunks with
  | nil => intro s _ _ _; rfl
  | cons c rest ih =>
    intro s hne hfresh hdist
    have hng : ¬(tl = sl ∨ c.content = "" ∨ trimText c.content = "") := by
      obtain ⟨h1, h2⟩ := hne c (by simp)
      simp [htl, h1, h2]
    have hmiss : findEntry s.cache (getCacheKey c.content tl sl) = none :=
      hfresh c (by simp)
    have hfst := translateText_miss_fst p s c.content tl sl hng hmiss
    have hrest : ∀ c' ∈ rest,
        findEntry (translateText p s c.content tl sl).2.cache
          (getCacheKey c'.content tl sl) = none := by
      intro c' hc'
      have hkne : getCacheKey c'.content tl sl ≠ getCacheKey c.content tl sl := by
        have hthis := (List.pairwise_cons.mp hdist).1 c' hc'
        intro hk
        apply hthis
        have hproj := congrArg (fun q : CacheKey => q.2.2) hk
        simpa [getCacheKey] using hproj.symm
      rw [translateText_cache_other p s c.content tl sl _ hkne]
      exact hfresh c' (by simp [hc'])
    cases rest with
    | nil =>
      show ([(chunkStepBulk p c.content tl sl s).1], [],
        (chunkStepBulk p c.content tl sl s).2.2.2).1 = _
      rw [chunkStepBulk_eq]
      simp [hfst]
    | cons c2 rest2 =>
      have hrest2 : ∀ c' ∈ c2 :: rest2,
          findEntry (getCachedTranslation (translateText p s c.content tl sl).2
              c.content tl sl).2.cache (getCacheKey c'.content tl sl) = none := by
        intro c' hc'
        rw [getCachedTranslation_cache]
        exact hrest c' hc'
      simp only [processBulk, chunkStepBulk_eq]
      rw [ih (getCachedTranslation (translateText p s c.content tl sl).2 c.content tl sl).2
        (fun c' hc' => hne c' (by simp [hc'])) hrest2 (List.pairwise_cons.mp hdist).2]
      simp [hfst]

/-! ### Gate-passing run lemmas for the two endpoints -/

lemma POST_run (body : ReqBody) (m : Metadata) (chunks : List Chunk) (p : Provider)
    (s0 : TState) (tl sl : String)
    (hid : body.documentId.getD "" ≠ "")
    (htlv : body.targetLanguage = some tl) (hlang : tl ≠ "")
    (hslv : m.language = some sl)
    (hn : chunks.length ≠ 0) (hn2 : chunks.length ≤ 100)
    (htl : tl ≠ sl)
    (hprobe : (translateText p s0 "test" tl sl).1 ≠ "test") :
    POST body (some m) chunks p s0 =
      (.success (String.intercalate "\n\n"
          (processBulk p tl sl chunks (translateText p s0 "test" tl sl).2).1) chunks.length,
        (processBulk p tl sl chunks (translateText p s0 "test" tl sl).2).2.2) := by
  have hgt : ¬ chunks.length > 100 := by omega
  simp [POST, hid, htlv, hslv, hlang, hn, hgt, htl, hprobe]

lemma POST_probe_fail (body : ReqBody) (m : Metadata) (chunks : List Chunk) (p : Provider)
    (s0 : TState) (tl sl : String)
    (hid : body.documentId.getD "" ≠ "")
    (htlv : body.targetLanguage = some tl) (hlang : tl ≠ "")
    (hslv : m.language = some sl)
    (hn : chunks.length ≠ 0) (hn2 : chunks.length ≤ 100)
    (htl : tl ≠ sl)
    (hprobe : (translateText p s0 "test" tl sl).1 = "test") :
    POST body (some m) chunks p s0 =
      (.unavailable chunks.length "10-15 minutes" true, (translateText p s0 "test" tl sl).2) := by
  have hgt : ¬ chunks.length > 100 := by omega
  simp [POST, hid, htlv, hslv, hlang, hn, hgt, htl, hprobe]

lemma GETbinary_run (tl : String) (m : Metadata) (chunks : List Chunk) (p : Provider)
    (s0 : TState) (sl : String)
    (hslv : m.language = some sl)
    (hn : chunks.length ≠ 0) (hn2 : chunks.length ≤ 50) (htl : tl ≠ sl) :
    GETbinary tl false (some m) chunks p s0 =
      (.fileResponse (String.intercalate "\n\n" (processDownload p tl sl chunks s0).1)
          chunks.length,
        (processDownload p tl sl chunks s0).2.2) := by
  have hgt : ¬ chunks.length > 50 := by omega
  simp [GETbinary, hslv, hn, hgt, htl]

/-! ### Claim theorems -/

/-- Claim C5 (corrected), amended form: the retry loop of the chunk
    translator retries a rate-limited attempt up to a bound of 3 attempts,
    waiting attempt_number × base_delay between attempts, with base_delay
    5000 ms in the bulk-translate path and 3000 ms in the download path; a
    non-rate-limited failure is not retried (exactly one attempt); when
    retries are exhausted the chunk's result is its original text and no
    error is propagated. -/
theorem c5_retry_backoff (att attF : TState → Attempt × TState) (s : TState) (orig : String)
    (hrl : ∀ st, (att st).1 = .rateLimited)
    (hof : ∀ st, (attF st).1 = .otherFail) :
    ((bulkRetryLoop att orig s).1 = orig
      ∧ (bulkRetryLoop att orig s).2.1 = [5000, 10000, 15000]
      ∧ (bulkRetryLoop att orig s).2.2.1 = 3)
    ∧ ((downloadRetryLoop att orig s).1 = orig
      ∧ (downloadRetryLoop att orig s).2.1 = [3000, 6000, 9000]
      ∧ (downloadRetryLoop att orig s).2.2.1 = 3)
    ∧ ((bulkRetryLoop attF orig s).1 = orig
      ∧ (bulkRetryLoop attF orig s).2.1 = []
      ∧ (bulkRetryLoop attF orig s).2.2.1 = 1)
    ∧ ((downloadRetryLoop attF orig s).1 = orig
      ∧ (downloadRetryLoop attF orig s).2.1 = []
      ∧ (downloadRetryLoop attF orig s).2.2.1 = 1) := by
  obtain ⟨hb1, hb2, hb3⟩ := routeRetryGo_rl_all att 5000 hrl 3 0 orig [] 0 s
  obtain ⟨hd1, hd2, hd3⟩ := routeRetryGo_rl_all att 3000 hrl 3 0 orig [] 0 s
  have hfb := routeRetryGo_fail_all attF 5000 hof 3 0 orig [] 0 s (by omega)
  have hfd := routeRetryGo_fail_all attF 3000 hof 3 0 orig [] 0 s (by omega)
  refine ⟨⟨hb1, ?_, hb3⟩, ⟨hd1, ?_, hd3⟩, ?_, ?_⟩
  · rw [bulkRetryLoop] at *
    rw [hb2]
    decide
  · rw [downloadRetryLoop] at *
    rw [hd2]
    decide
  · rw [bulkRetryLoop, hfb]
    exact ⟨rfl, rfl, rfl⟩
  · rw [downloadRetryLoop, hfd]
    exact ⟨rfl, rfl, rfl⟩

/-- Claim C5 counterexample: with a chunk whose every attempt is
    rate-limited, the bulk route's loop waits 5000, 10000, 15000 ms — the
    backoff base in the bulk path is 5000 ms, not the claimed 2000 ms. -/
theorem c5_counterexample :
    (bulkRetryLoop alwaysRateLimited "x" initState).2.1 = [5000, 10000, 15000]
    ∧ [5000, 10000, 15000] ≠ ([2000, 4000, 6000] : List Nat) := by
  refine ⟨rfl, by decide⟩

/-- Witness for c5_retry_backoff at concrete oracles. -/
theorem c5_retry_backoff_witness :
    ((bulkRetryLoop alwaysRateLimited "x" initState).1 = "x"
      ∧ (bulkRetryLoop alwaysRateLimited "x" initState).2.1 = [5000, 10000, 15000]
      ∧ (bulkRetryLoop alwaysRateLimited "x" initState).2.2.1 = 3)
    ∧ ((downloadRetryLoop alwaysRateLimited "x" initState).1 = "x"
      ∧ (downloadRetryLoop alwaysRateLimited "x" initState).2.1 = [3000, 6000, 9000]
      ∧ (downloadRetryLoop alwaysRateLimited "x" initState).2.2.1 = 3)
    ∧ ((bulkRetryLoop alwaysOtherFail "x" initState).1 = "x"
      ∧ (bulkRetryLoop alwaysOtherFail "x" initState).2.1 = []
      ∧ (bulkRetryLoop alwaysOtherFail "x" initState).2.2.1 = 1)
    ∧ ((downloadRetryLoop alwaysOtherFail "x" initState).1 = "x"
      ∧ (downloadRetryLoop alwaysOtherFail "x" initState).2.1 = []
      ∧ (downloadRetryLoop alwaysOtherFail "x" initState).2.2.1 = 1) :=
  c5_retry_backoff alwaysRateLimited alwaysOtherFail initState "x"
    (fun _ => rfl) (fun _ => rfl)

/-- Claim C6: lookup after store returns the stored value; a second store
    under the same key overwrites; texts with equal normalized form share the
    entry; the same text under two target languages keeps two distinct
    entries. -/
theorem c6_cache_algebra (s : TState) (text trans trans2 t2 tl tl2 sl : String)
    (htext : text ≠ "") (htr : trans ≠ "") (hne : text ≠ trans)
    (htr2 : trans2 ≠ "") (hne2 : text ≠ trans2)
    (hnorm : normalizeText t2 = normalizeText text)
    (htl : tl ≠ tl2) :
    (getCachedTranslation (setCachedTranslation s text trans tl sl) text tl sl).1 = some trans
    ∧ (getCachedTranslation (setCachedTranslation (setCachedTranslation s text trans tl sl)
        text trans2 tl sl) text tl sl).1 = some trans2
    ∧ (getCachedTranslation (setCachedTranslation s text trans tl sl) t2 tl sl).1 = some trans
    ∧ (getCachedTranslation (setCachedTranslation (setCachedTranslation s text trans tl sl)
        text trans2 tl2 sl) text tl sl).1 = some trans
    ∧ (getCachedTranslation (setCachedTranslation (setCachedTranslation s text trans tl sl)
        text trans2 tl2 sl) text tl2 sl).1 = some trans2 := by
  have hg1 : ¬(text = "" ∨ trans = "" ∨ text = trans) := by simp [htext, htr, hne]
  have hg2 : ¬(text = "" ∨ trans2 = "" ∨ text = trans2) := by simp [htext, htr2, hne2]
  have hc1 : (setCachedTranslation s text trans tl sl).cache =
      setEntry s.cache (getCacheKey text tl sl) trans := by
    unfold setCachedTranslation
    rw [if_neg hg1]
  have hc2 : (setCachedTranslation (setCachedTranslation s text trans tl sl)
      text trans2 tl sl).cache =
      setEntry (setEntry s.cache (getCacheKey text tl sl) trans)
        (getCacheKey text tl sl) trans2 := by
    unfold setCachedTranslation
    rw [if_neg hg2, if_neg hg1]
  have hc3 : (setCachedTranslation (setCachedTranslation s text trans tl sl)
      text trans2 tl2 sl).cache =
      setEntry (setEntry s.cache (getCacheKey text tl sl) trans)
        (getCacheKey text tl2 sl) trans2 := by
    unfold setCachedTranslation
    rw [if_neg hg2, if_neg hg1]
  have hk2 : getCacheKey t2 tl sl = getCacheKey text tl sl := by
    simp [getCacheKey, hnorm]
  have hkk : getCacheKey text tl sl ≠ getCacheKey text tl2 sl := by
    simp [getCacheKey, htl]
  refine ⟨?_, ?_, ?_, ?_, ?_⟩
  · have hfind : findEntry (setCachedTranslation s text trans tl sl).cache
        (getCacheKey text tl sl) = some trans := by
      rw [hc1]; exact findEntry_setEntry_self _ _ _
    rw [getCachedTranslation_some _ _ _ _ _ hfind htr]
  · have hfind : findEntry (setCachedTranslation (setCachedTranslation s text trans tl sl)
        text trans2 tl sl).cache (getCacheKey text tl sl) = some trans2 := by
      rw [hc2]; exact findEntry_setEntry_self _ _ _
    rw [getCachedTranslation_some _ _ _ _ _ hfind htr2]
  · have hfind : findEntry (setCachedTranslation s text trans tl sl).cache
        (getCacheKey t2 tl sl) = some trans := by
      rw [hc1, hk2]; exact findEntry_setEntry_self _ _ _
    rw [getCachedTranslation_some _ _ _ _ _ hfind htr]
  · have hfind : findEntry (setCachedTranslation (setCachedTranslation s text trans tl sl)
        text trans2 tl2 sl).cache (getCacheKey text tl sl) = some trans := by
      rw [hc3, findEntry_setEntry_ne _ _ _ _ hkk]
      exact findEntry_setEntry_self _ _ _
    rw [getCachedTranslation_some _ _ _ _ _ hfind htr]
  · have hfind : findEntry (setCachedTranslation (setCachedTranslation s text trans tl sl)
        text trans2 tl2 sl).cache (getCacheKey text tl2 sl) = some trans2 := by
      rw [hc3]; exact findEntry_setEntry_self _ _ _
    rw [getCachedTranslation_some _ _ _ _ _ hfind htr2]

/-- Witness for c6_cache_algebra at concrete strings. -/
theorem c6_cache_algebra_witness :
    (getCachedTranslation (setCachedTranslation initState "Hello" "Hola" "es" "en")
      "Hello" "es" "en").1 = some "Hola"
    ∧ (getCachedTranslation (setCachedTranslation
        (setCachedTranslation initState "Hello" "Hola" "es" "en")
        "Hello" "Salut" "es" "en") "Hello" "es" "en").1 = some "Salut"
    ∧ (getCachedTranslation (setCachedTranslation initState "Hello" "Hola" "es" "en")
        "  HELLO " "es" "en").1 = some "Hola"
    ∧ (getCachedTranslation (setCachedTranslation
        (setCachedTranslation initState "Hello" "Hola" "es" "en")
        "Hello" "Salut" "fr" "en") "Hello" "es" "en").1 = some "Hola"
    ∧ (getCachedTranslation (setCachedTranslation
        (setCachedTranslation initState "Hello" "Hola" "es" "en")
        "Hello" "Salut" "fr" "en") "Hello" "fr" "en").1 = some "Salut" :=
  c6_cache_algebra initState "Hello" "Hola" "Salut" "  HELLO " "es" "fr" "en"
    (by decide) (by decide) (by decide) (by decide) (by decide) (by decide) (by decide)

/-- Claim C7: translateText is total at its interface — on a provider error
    or an empty/unchanged provider answer it yields the original text — so
    the enclosing retry loop of each route makes exactly one attempt, logs no
    backoff delay (its rate-limited branch is unreachable), and at most one
    provider call happens per chunk pass. -/
theorem c7_translate_total (p : Provider) (s : TState) (text tl sl r : String)
    (hng : ¬(tl = sl ∨ text = "" ∨ trimText text = ""))
    (hmiss : findEntry s.cache (getCacheKey text tl sl) = none) :
    ((p text sl tl = .rateLimited ∨ p text sl tl = .failed) →
      (translateText p s text tl sl).1 = text)
    ∧ (p text sl tl = .ok r → (r = "" ∨ r = text) →
      (translateText p s text tl sl).1 = text)
    ∧ (chunkStepBulk p text tl sl s).1 = (translateText p s text tl sl).1
    ∧ (chunkStepBulk p text tl sl s).2.1 = []
    ∧ (chunkStepBulk p text tl sl s).2.2.1 = 1
    ∧ (chunkStepDownload p text tl sl s).1 = (translateText p s text tl sl).1
    ∧ (chunkStepDownload p text tl sl s).2.1 = []
    ∧ (chunkStepDownload p text tl sl s).2.2.1 = 1
    ∧ (translateText p s text tl sl).2.providerCalls ≤ s.providerCalls + 1 := by
  have hfst := translateText_miss_fst p s text tl sl hng hmiss
  refine ⟨?_, ?_, rfl, rfl, rfl, rfl, rfl, rfl, translateText_providerCalls p s text tl sl⟩
  · intro h
    rw [hfst]
    rcases h with h | h <;> simp [pureOutcome, h]
  · intro hok hre
    rw [hfst]
    simp [pureOutcome, hok, hre]

/-- Witness for c7_translate_total at a concrete failing provider. -/
theorem c7_translate_total_witness :
    ((failingProvider "Hi" "en" "es" = .rateLimited ∨ failingProvider "Hi" "en" "es" = .failed) →
      (translateText failingProvider initState "Hi" "es" "en").1 = "Hi")
    ∧ (failingProvider "Hi" "en" "es" = .ok "Hi" → (("Hi" : String) = "" ∨ ("Hi" : String) = "Hi") →
      (translateText failingProvider initState "Hi" "es" "en").1 = "Hi")
    ∧ (chunkStepBulk failingProvider "Hi" "es" "en" initState).1 =
        (translateText failingProvider initState "Hi" "es" "en").1
    ∧ (chunkStepBulk failingProvider "Hi" "es" "en" initState).2.1 = []
    ∧ (chunkStepBulk failingProvider "Hi" "es" "en" initState).2.2.1 = 1
    ∧ (chunkStepDownload failingProvider "Hi" "es" "en" initState).1 =
        (translateText failingProvider initState "Hi" "es" "en").1
    ∧ (chunkStepDownload failingProvider "Hi" "es" "en" initState).2.1 = []
    ∧ (chunkStepDownload failingProvider "Hi" "es" "en" initState).2.2.1 = 1
    ∧ (translateText failingProvider initState "Hi" "es" "en").2.providerCalls ≤
        initState.providerCalls + 1 :=
  c7_translate_total failingProvider initState "Hi" "es" "en" "Hi" (by decide) rfl

/-- Claim C9 (corrected), amended form: stats() returns the entry count as
    size and the two counters, and hitRate equals 100 × hits / (hits +
    misses) — a percentage — when at least one lookup has occurred, and 0
    when no lookups have occurred; every lookup makes the counter sum
    positive. -/
theorem c9_stats (s : TState) (t tl sl : String) :
    (getCacheStats initState).hitRate = 0
    ∧ (getCacheStats s).size = s.cache.length
    ∧ (getCacheStats s).hits = s.hits
    ∧ (getCacheStats s).misses = s.misses
    ∧ (s.hits + s.misses = 0 → (getCacheStats s).hitRate = 0)
    ∧ (0 < s.hits + s.misses →
        (getCacheStats s).hitRate = ((s.hits : Rat) / ((s.hits : Rat) + (s.misses : Rat))) * 100)
    ∧ 0 < (getCachedTranslation s t tl sl).2.hits + (getCachedTranslation s t tl sl).2.misses := by
  refine ⟨rfl, rfl, rfl, rfl, ?_, ?_, ?_⟩
  · intro h
    simp [getCacheStats, h]
  · intro h
    simp [getCacheStats, h]
  · unfold getCachedTranslation
    rcases hf : findEntry s.cache (getCacheKey t tl sl) with _ | v
    · simp
    · by_cases hv : v = "" <;> simp [hv]

/-- Claim C9 counterexample: after one hit and no misses the code reports
    hitRate 100 (a percentage), while the claim's formula hits/(hits+misses)
    gives 1. -/
theorem c9_counterexample :
    (getCachedTranslation (setCachedTranslation initState "a" "b" "es" "en")
        "a" "es" "en").2.hits = 1
    ∧ (getCachedTranslation (setCachedTranslation initState "a" "b" "es" "en")
        "a" "es" "en").2.misses = 0
    ∧ (getCacheStats (getCachedTranslation
        (setCachedTranslation initState "a" "b" "es" "en") "a" "es" "en").2).hitRate = 100
    ∧ ((1 : Rat) / (1 + 0)) = 1
    ∧ (100 : Rat) ≠ (1 : Rat) := by
  have h1 : (getCachedTranslation (setCachedTranslation initState "a" "b" "es" "en")
      "a" "es" "en").2.hits = 1 := by decide
  have h2 : (getCachedTranslation (setCachedTranslation initState "a" "b" "es" "en")
      "a" "es" "en").2.misses = 0 := by decide
  refine ⟨h1, h2, ?_, by norm_num, by norm_num⟩
  rw [getCacheStats_hitRate, h1, h2]
  norm_num

lemma POST_not_tooLarge (body : ReqBody) (md : Option Metadata) (chunks : List Chunk)
    (p : Provider) (s0 : TState) (h : chunks.length ≤ 100) :
    ((POST body md chunks p s0).1).isTooLarge = false := by
  unfold POST
  split
  · rfl
  split
  · rfl
  split
  · rfl
  split
  · rfl
  split
  · rename_i hgt
    exact absurd hgt (by omega)
  dsimp only
  split
  · rfl
  split
  · rfl
  · rfl

lemma GETbinary_not_tooLarge (tl : String) (skip : Bool) (md : Option Metadata)
    (chunks : List Chunk) (p : Provider) (s0 : TState)
    (h : chunks.length ≤ 50 ∨ skip = true) :
    ((GETbinary tl skip md chunks p s0).1).isTooLarge = false := by
  unfold GETbinary
  split
  · rfl
  split
  · rfl
  split
  · rename_i hc
    rcases h with h | h
    · exact absurd hc.1 (by omega)
    · exact absurd h hc.2
  dsimp only
  split
  · rfl
  · rfl

/-- Claim C3 (corrected), amended form: each endpoint rejects with too-large,
    before any provider call (the state is returned unchanged), exactly when
    the chunk count exceeds its ceiling — above 100 on the bulk endpoint;
    above 50 on the download endpoint, and there only when skipTranslation is
    off (with skipTranslation set, any size proceeds untranslated).  The bulk
    413 payload carries the chunk count, an estimated time of ceil(3·n/60)
    minutes (a linear three-seconds-per-chunk estimate rounded up to minutes)
    and the untranslated-download fallback reference; the download 413
    payload carries only the chunk count and a recommendation, with no
    estimated time and no fallback reference.  A document with exactly the
    ceiling count is not rejected. -/
theorem c3_admission (body : ReqBody) (m : Metadata) (chunks : List Chunk) (p : Provider)
    (s0 : TState) (tl : String) (skip : Bool)
    (hid : body.documentId.getD "" ≠ "")
    (hlang : body.targetLanguage.getD "en" ≠ "")
    (hn : chunks.length ≠ 0) :
    (chunks.length > 100 →
      POST body (some m) chunks p s0 =
        (.tooLarge chunks.length (some ((3 * chunks.length + 59) / 60)) true, s0))
    ∧ (chunks.length ≤ 100 → ((POST body (some m) chunks p s0).1).isTooLarge = false)
    ∧ (chunks.length > 50 ∧ skip = false →
      GETbinary tl skip (some m) chunks p s0 =
        (.tooLargeDownload chunks.length none false, s0))
    ∧ (chunks.length ≤ 50 ∨ skip = true →
      ((GETbinary tl skip (some m) chunks p s0).1).isTooLarge = false) := by
  refine ⟨?_, ?_, ?_, ?_⟩
  · intro h
    simp [POST, hid, hlang, hn, h]
  · intro h
    exact POST_not_tooLarge body (some m) chunks p s0 h
  · rintro ⟨h1, h2⟩
    subst h2
    simp [GETbinary, hn, h1]
  · intro h
    exact GETbinary_not_tooLarge tl skip (some m) chunks p s0 h

/-- Claim C3 counterexample: at 51 chunks the download endpoint's 413 payload
    carries no estimated processing time and no fallback reference to the
    untranslated original (the `none` and `false` fields), and with
    skipTranslation set the same 51-chunk document is not rejected at all —
    both contradicting the claim as stated. -/
theorem c3_counterexample :
    GETbinary "es" false (some demoMeta) (manyChunks 51) demoProvider initState =
      (.tooLargeDownload 51 none false, initState)
    ∧ ((GETbinary "es" true (some demoMeta) (manyChunks 51) demoProvider initState).1).isTooLarge
        = false := by
  exact ⟨rfl, rfl⟩

/-- Witness for c3_admission at a 101-chunk document. -/
theorem c3_admission_witness :
    ((manyChunks 101).length > 100 →
      POST demoBody (some demoMeta) (manyChunks 101) demoProvider initState =
        (.tooLarge (manyChunks 101).length (some ((3 * (manyChunks 101).length + 59) / 60)) true,
          initState))
    ∧ ((manyChunks 101).length ≤ 100 →
      ((POST demoBody (some demoMeta) (manyChunks 101) demoProvider initState).1).isTooLarge
        = false)
    ∧ ((manyChunks 101).length > 50 ∧ false = false →
      GETbinary "es" false (some demoMeta) (manyChunks 101) demoProvider initState =
        (.tooLargeDownload (manyChunks 101).length none false, initState))
    ∧ ((manyChunks 101).length ≤ 50 ∨ false = true →
      ((GETbinary "es" false (some demoMeta) (manyChunks 101) demoProvider initState).1).isTooLarge
        = false) :=
  c3_admission demoBody demoMeta (manyChunks 101) demoProvider initState "es" false
    (by decide) (by decide) (by decide)

/-- Claim C4: after admission, the availability probe sends the constant
    canary "test" through the chunk translator once; availability is exactly
    "the translator changed the text".  If it reports unavailable, the bulk
    endpoint returns the unavailable outcome with retry-after guidance and
    the untranslated-download fallback, the final state is the post-probe
    state — no chunk processed, zero chunk-level provider calls, at most one
    probe provider call — and otherwise the chunk loop runs. -/
theorem c4_availability_gate (body : ReqBody) (m : Metadata) (chunks : List Chunk) (p : Provider)
    (s0 : TState) (tl sl : String)
    (hid : body.documentId.getD "" ≠ "")
    (htlv : body.targetLanguage = some tl) (hlang : tl ≠ "")
    (hslv : m.language = some sl)
    (hn : chunks.length ≠ 0) (hn2 : chunks.length ≤ 100) (htl : tl ≠ sl) :
    ((translateText p s0 "test" tl sl).1 = "test" →
      POST body (some m) chunks p s0 =
        (.unavailable chunks.length "10-15 minutes" true, (translateText p s0 "test" tl sl).2)
      ∧ (translateText p s0 "test" tl sl).2.providerCalls ≤ s0.providerCalls + 1)
    ∧ ((translateText p s0 "test" tl sl).1 ≠ "test" →
      POST body (some m) chunks p s0 =
        (.success (String.intercalate "\n\n"
            (processBulk p tl sl chunks (translateText p s0 "test" tl sl).2).1) chunks.length,
          (processBulk p tl sl chunks (translateText p s0 "test" tl sl).2).2.2)) := by
  constructor
  · intro hp
    exact ⟨POST_probe_fail body m chunks p s0 tl sl hid htlv hlang hslv hn hn2 htl hp,
      translateText_providerCalls p s0 "test" tl sl⟩
  · intro hp
    exact POST_run body m chunks p s0 tl sl hid htlv hlang hslv hn hn2 htl hp

/-- Witness for c4_availability_gate at a provider that is down. -/
theorem c4_availability_gate_witness :
    ((translateText failingProvider initState "test" "es" "en").1 = "test" →
      POST demoBody (some demoMeta) demoChunks failingProvider initState =
        (.unavailable demoChunks.length "10-15 minutes" true,
          (translateText failingProvider initState "test" "es" "en").2)
      ∧ (translateText failingProvider initState "test" "es" "en").2.providerCalls ≤
          initState.providerCalls + 1)
    ∧ ((translateText failingProvider initState "test" "es" "en").1 ≠ "test" →
      POST demoBody (some demoMeta) demoChunks failingProvider initState =
        (.success (String.intercalate "\n\n"
            (processBulk failingProvider "es" "en" demoChunks
              (translateText failingProvider initState "test" "es" "en").2).1)
            demoChunks.length,
          (processBulk failingProvider "es" "en" demoChunks
            (translateText failingProvider initState "test" "es" "en").2).2.2)) :=
  c4_availability_gate demoBody demoMeta demoChunks failingProvider initState "es" "en"
    (by decide) rfl (by decide) rfl (by decide) (by decide) (by decide)

/-- Claim C8 (corrected), amended form: a pacing delay follows every chunk
    except the last; in the bulk path it is 100 ms exactly when a fresh
    lookup of the chunk's source text hits the cache at the end of its
    iteration — which holds after a cache hit or after a successful
    just-cached provider translation — and 2000 ms otherwise; in the download
    path the delay is always 2000 ms regardless of cache hits. -/
theorem c8_pacing (p : Provider) (tl sl : String) (chunks : List Chunk) (s : TState) (i : Nat)
    (hi : i + 1 < chunks.length) :
    (processBulk p tl sl chunks s).2.1.length = chunks.length - 1
    ∧ (processBulk p tl sl chunks s).2.1[i]? =
        some (if (getCachedTranslation
            (translateText p (bulkStateBefore p tl sl chunks s i)
              (chunks.get ⟨i, by omega⟩).content tl sl).2
            (chunks.get ⟨i, by omega⟩).content tl sl).1.isSome
          then 100 else 2000)
    ∧ (processDownload p tl sl chunks s).2.1 = List.replicate (chunks.length - 1) 2000 :=
  ⟨processBulk_delays_length p tl sl chunks s,
   processBulk_delay_get p tl sl chunks s i hi,
   processDownload_delays p tl sl chunks s⟩

/-- Claim C8 counterexample: both chunks of the demo document require a
    provider call (two provider calls are made), yet the bulk pacing delay
    after the first chunk is 100 ms, not the claimed longer 2000 ms; and in
    the download path a chunk served from the cache (three chunks, only two
    provider calls) is still followed by a 2000 ms delay, not 100 ms. -/
theorem c8_counterexample :
    (processBulk demoProvider "es" "en" demoChunks initState).2.2.providerCalls = 2
    ∧ (processBulk demoProvider "es" "en" demoChunks initState).2.1 = [100]
    ∧ ([100] : List Nat) ≠ [2000]
    ∧ (processDownload demoProvider "es" "en" dupChunks initState).2.1 = [2000, 2000]
    ∧ (processDownload demoProvider "es" "en" dupChunks initState).2.2.providerCalls = 2 := by
  exact ⟨rfl, rfl, by decide, rfl, rfl⟩

/-- Witness for c8_pacing at the demo document. -/
theorem c8_pacing_witness :
    (processBulk demoProvider "es" "en" demoChunks initState).2.1.length =
      demoChunks.length - 1
    ∧ (processBulk demoProvider "es" "en" demoChunks initState).2.1[0]? =
        some (if (getCachedTranslation
            (translateText demoProvider
              (bulkStateBefore demoProvider "es" "en" demoChunks initState 0)
              (demoChunks.get ⟨0, by decide⟩).content "es" "en").2
            (demoChunks.get ⟨0, by decide⟩).content "es" "en").1.isSome
          then 100 else 2000)
    ∧ (processDownload demoProvider "es" "en" demoChunks initState).2.1 =
        List.replicate (demoChunks.length - 1) 2000 :=
  c8_pacing demoProvider "es" "en" demoChunks initState 0 (by decide)

/-- Claim C10 (corrected), amended form: a found document whose store returns
    zero chunks makes both endpoints answer the 404 "No document chunks
    found" outcome with no work done — an error response, not a non-error
    "no content" report. -/
theorem c10_no_chunks (body : ReqBody) (m : Metadata) (p : Provider) (s0 : TState)
    (tl : String) (skip : Bool)
    (hid : body.documentId.getD "" ≠ "")
    (hlang : body.targetLanguage.getD "en" ≠ "") :
    POST body (some m) [] p s0 = (.noChunks, s0)
    ∧ PostResult.status .noChunks = 404
    ∧ GETbinary tl skip (some m) [] p s0 = (.noChunks, s0)
    ∧ GetResult.status .noChunks = 404 := by
  refine ⟨?_, rfl, ?_, rfl⟩
  · simp [POST, hid, hlang]
  · simp [GETbinary]

/-- Claim C10 counterexample: at a found document with zero chunks the bulk
    endpoint answers HTTP status 404 with an error body — an error outcome,
    not a non-error result. -/
theorem c10_counterexample :
    ((POST demoBody (some demoMeta) [] demoProvider initState).1).status = 404
    ∧ (404 : Nat) ≠ 200 := by
  exact ⟨rfl, by decide⟩

/-- Witness for c10_no_chunks at the demo request. -/
theorem c10_no_chunks_witness :
    POST demoBody (some demoMeta) [] demoProvider initState = (.noChunks, initState)
    ∧ PostResult.status .noChunks = 404
    ∧ GETbinary "es" false (some demoMeta) [] demoProvider initState = (.noChunks, initState)
    ∧ GetResult.status .noChunks = 404 :=
  c10_no_chunks demoBody demoMeta demoProvider initState "es" false (by decide) (by decide)

/-- Claim C1: for a document whose store returns chunks in ascending index
    order and which passes the gates, the translated body is the blank-line
    join of the per-chunk outcomes in index order: position i always holds
    the translateText outcome of input chunk i (the cached or provider
    translation on success, the original content on failure) at the state the
    loop has reached, on both endpoints. -/
theorem c1_join_order (body : ReqBody) (m : Metadata) (chunks : List Chunk) (p : Provider)
    (s0 : TState) (tl sl : String)
    (hid : body.documentId.getD "" ≠ "")
    (htlv : body.targetLanguage = some tl) (hlang : tl ≠ "")
    (hslv : m.language = some sl)
    (hsorted : List.Pairwise (fun a b => a.chunkIndex < b.chunkIndex) chunks)
    (hn : chunks.length ≠ 0) (htl : tl ≠ sl)
    (hprobe : (translateText p s0 "test" tl sl).1 ≠ "test") :
    (chunks.length ≤ 100 →
      POST body (some m) chunks p s0 =
        (.success (String.intercalate "\n\n"
            (processBulk p tl sl chunks (translateText p s0 "test" tl sl).2).1) chunks.length,
          (processBulk p tl sl chunks (translateText p s0 "test" tl sl).2).2.2)
      ∧ (processBulk p tl sl chunks (translateText p s0 "test" tl sl).2).1.length =
          chunks.length
      ∧ ∀ i (hi : i < chunks.length),
          (processBulk p tl sl chunks (translateText p s0 "test" tl sl).2).1[i]? =
            some ((translateText p
              (bulkStateBefore p tl sl chunks (translateText p s0 "test" tl sl).2 i)
              (chunks.get ⟨i, hi⟩).content tl sl).1))
    ∧ (chunks.length ≤ 50 →
      GETbinary tl false (some m) chunks p s0 =
        (.fileResponse (String.intercalate "\n\n" (processDownload p tl sl chunks s0).1)
            chunks.length,
          (processDownload p tl sl chunks s0).2.2)
      ∧ (processDownload p tl sl chunks s0).1.length = chunks.length
      ∧ ∀ i (hi : i < chunks.length),
          (processDownload p tl sl chunks s0).1[i]? =
            some ((translateText p (downloadStateBefore p tl sl chunks s0 i)
              (chunks.get ⟨i, hi⟩).content tl sl).1)) := by
  constructor
  · intro hn2
    exact ⟨POST_run body m chunks p s0 tl sl hid htlv hlang hslv hn hn2 htl hprobe,
      processBulk_length p tl sl chunks _,
      fun i hi => processBulk_get p tl sl chunks _ i hi⟩
  · intro hn2
    exact ⟨GETbinary_run tl m chunks p s0 sl hslv hn hn2 htl,
      processDownload_length p tl sl chunks s0,
      fun i hi => processDownload_get p tl sl chunks s0 i hi⟩

/-- Witness for c1_join_order at the demo document. -/
theorem c1_join_order_witness :
    (demoChunks.length ≤ 100 →
      POST demoBody (some demoMeta) demoChunks demoProvider initState =
        (.success (String.intercalate "\n\n"
            (processBulk demoProvider "es" "en" demoChunks
              (translateText demoProvider initState "test" "es" "en").2).1) demoChunks.length,
          (processBulk demoProvider "es" "en" demoChunks
            (translateText demoProvider initState "test" "es" "en").2).2.2)
      ∧ (processBulk demoProvider "es" "en" demoChunks
          (translateText demoProvider initState "test" "es" "en").2).1.length =
          demoChunks.length
      ∧ ∀ i (hi : i < demoChunks.length),
          (processBulk demoProvider "es" "en" demoChunks
            (translateText demoProvider initState "test" "es" "en").2).1[i]? =
            some ((translateText demoProvider
              (bulkStateBefore demoProvider "es" "en" demoChunks
                (translateText demoProvider initState "test" "es" "en").2 i)
              (demoChunks.get ⟨i, hi⟩).content "es" "en").1))
    ∧ (demoChunks.length ≤ 50 →
      GETbinary "es" false (some demoMeta) demoChunks demoProvider initState =
        (.fileResponse (String.intercalate "\n\n"
            (processDownload demoProvider "es" "en" demoChunks initState).1)
            demoChunks.length,
          (processDownload demoProvider "es" "en" demoChunks initState).2.2)
      ∧ (processDownload demoProvider "es" "en" demoChunks initState).1.length =
          demoChunks.length
      ∧ ∀ i (hi : i < demoChunks.length),
          (processDownload demoProvider "es" "en" demoChunks initState).1[i]? =
            some ((translateText demoProvider
              (downloadStateBefore demoProvider "es" "en" demoChunks initState i)
              (demoChunks.get ⟨i, hi⟩).content "es" "en").1)) :=
  c1_join_order demoBody demoMeta demoChunks demoProvider initState "es" "en"
    (by decide) rfl (by decide) rfl (by decide) (by decide) (by decide) (by decide)

/-- Claim C2: past the size and availability gates, with fresh cache entries
    and distinct chunk texts, the document result is complete (success) even
    when the provider fails on a chunk: the body is the join of the pointwise
    provider outcomes, the failing chunk's position carries its original
    untranslated content, and every successfully translated chunk's position
    carries the provider's changed text. -/
theorem c2_degrade_not_abort (body : ReqBody) (m : Metadata) (chunks : List Chunk) (p : Provider)
    (s0 : TState) (tl sl : String) (i : Nat) (hi : i < chunks.length)
    (hid : body.documentId.getD "" ≠ "")
    (htlv : body.targetLanguage = some tl) (hlang : tl ≠ "")
    (hslv : m.language = some sl)
    (hn : chunks.length ≠ 0) (hn2 : chunks.length ≤ 100) (htl : tl ≠ sl)
    (hprobe : (translateText p s0 "test" tl sl).1 ≠ "test")
    (hne : ∀ c ∈ chunks, c.content ≠ "" ∧ trimText c.content ≠ "")
    (hfresh : ∀ c ∈ chunks, findEntry s0.cache (getCacheKey c.content tl sl) = none)
    (hnt : ∀ c ∈ chunks, normalizeText c.content ≠ normalizeText "test")
    (hdist : List.Pairwise (fun a b => normalizeText a.content ≠ normalizeText b.content) chunks)
    (hfail : p (chunks.get ⟨i, hi⟩).content sl tl = .rateLimited
      ∨ p (chunks.get ⟨i, hi⟩).content sl tl = .failed) :
    (POST body (some m) chunks p s0).1 =
      .success (String.intercalate "\n\n"
        (chunks.map (fun c => pureOutcome p tl sl c.content))) chunks.length
    ∧ (chunks.map (fun c => pureOutcome p tl sl c.content))[i]? =
        some ((chunks.get ⟨i, hi⟩).content)
    ∧ ∀ j (hj : j < chunks.length) (t : String), j ≠ i →
        p (chunks.get ⟨j, hj⟩).content sl tl = .ok t → t ≠ "" →
        t ≠ (chunks.get ⟨j, hj⟩).content →
        (chunks.map (fun c => pureOutcome p tl sl c.content))[j]? = some t := by
  have hfresh1 : ∀ c ∈ chunks,
      findEntry (translateText p s0 "test" tl sl).2.cache (getCacheKey c.content tl sl) = none := by
    intro c hc
    have hkne : getCacheKey c.content tl sl ≠ getCacheKey "test" tl sl := by
      intro hk
      apply hnt c hc
      have hproj := congrArg (fun q : CacheKey => q.2.2) hk
      simpa [getCacheKey] using hproj
    rw [translateText_cache_other p s0 "test" tl sl _ hkne]
    exact hfresh c hc
  have hpure := processBulk_pure p tl sl htl chunks (translateText p s0 "test" tl sl).2
    hne hfresh1 hdist
  refine ⟨?_, ?_, ?_⟩
  · rw [POST_run body m chunks p s0 tl sl hid htlv hlang hslv hn hn2 htl hprobe]
    rw [hpure]
  · rw [List.getElem?_map, List.getElem?_eq_getElem hi]
    rcases hfail with h | h <;>
      · rw [List.get_eq_getElem] at h
        simp [pureOutcome, h]
  · intro j hj t hji hok ht1 ht2
    rw [List.getElem?_map, List.getElem?_eq_getElem hj]
    rw [List.get_eq_getElem] at hok ht2
    simp [pureOutcome, hok, ht1, ht2]

/-- Witness for c2_degrade_not_abort: provider rate-limited exactly on the
    middle chunk of three. -/
theorem c2_degrade_not_abort_witness :
    (POST demoBody (some demoMeta) threeChunks failAt1Provider initState).1 =
      .success (String.intercalate "\n\n"
        (threeChunks.map (fun c => pureOutcome failAt1Provider "es" "en" c.content)))
        threeChunks.length
    ∧ (threeChunks.map (fun c => pureOutcome failAt1Provider "es" "en" c.content))[1]? =
        some ((threeChunks.get ⟨1, by decide⟩).content)
    ∧ ∀ j (hj : j < threeChunks.length) (t : String), j ≠ 1 →
        failAt1Provider (threeChunks.get ⟨j, hj⟩).content "en" "es" = .ok t → t ≠ "" →
        t ≠ (threeChunks.get ⟨j, hj⟩).content →
        (threeChunks.map (fun c => pureOutcome failAt1Provider "es" "en" c.content))[j]? =
          some t :=
  c2_degrade_not_abort demoBody demoMeta threeChunks failAt1Provider initState "es" "en" 1
    (by decide) (by decide) rfl (by decide) rfl (by decide) (by decide) (by decide)
    (by decide) (by decide) (by decide) (by decide) (by decide) (Or.inl rfl)

/-- Witness for c9_stats at a concrete state. -/
theorem c9_stats_witness :
    (getCacheStats initState).hitRate = 0
    ∧ (getCacheStats initState).size = initState.cache.length
    ∧ (getCacheStats initState).hits = initState.hits
    ∧ (getCacheStats initState).misses = initState.misses
    ∧ (initState.hits + initState.misses = 0 → (getCacheStats initState).hitRate = 0)
    ∧ (0 < initState.hits + initState.misses →
        (getCacheStats initState).hitRate =
          ((initState.hits : Rat) / ((initState.hits : Rat) + (initState.misses : Rat))) * 100)
    ∧ 0 < (getCachedTranslation initState "a" "es" "en").2.hits +
        (getCachedTranslation initState "a" "es" "en").2.misses :=
  c9_stats initState "a" "es" "en"

end MLRag
